import Mathlib

/-!
Cronos native <-> ERC20 conversion (x/cronos/keeper/evm.go)

A shallow embedding of the keeper functions of `x/cronos/keeper/evm.go`:
`CallEVM`, `CallModuleERC20`, `DeployModuleERC20`, `SendCoinFromNativeToERC20`,
`SendCoinFromERC20ToNative`, `ConvertCoinsFromNativeToERC20` and
`ConvertCoinsFromERC20ToNative`.

The Go functions mutate the store behind `sdk.Context` and return an `error`.
Here every function takes the context state and returns the pair of its Go
result and the context state it leaves behind (also when it returns an error:
the Go code never restores the context itself).

Collaborators that live outside the file (the EVM keeper, the ABI packer, the
denom allow-list, address derivation) are fields of `Keeper`; the bank transfer
and the contract registry are modelled from the specification.  Every call to a
collaborator that can write state appends one `Event` to `Context.trace`.
-/

namespace Cronos

/-- A `common.Address` (20 bytes); `sdk.AccAddress(addr.Bytes())` is the same bytes. -/
abbrev Address := Nat

/-- A byte string (`[]byte`). -/
abbrev Bytes := List Nat

/-- An `sdk.Coin`; the amount is an unsigned big integer. -/
structure Coin where
  Denom : String
  Amount : Nat
deriving DecidableEq

/-- The variadic arguments handed to `ABI.Pack`. -/
inductive AbiArg where
  | str (s : String)
  | uint8 (n : Nat)
  | address (a : Address)
  | bigInt (n : Nat)
deriving DecidableEq

/-- The `error` values of the keeper. `errorsNew` is `errors.New(text)`; the two
`fmt.Errorf` errors keep their arguments; `insufficientFunds` is the transfer
failure of the ledger; `foreign` is an error produced inside a collaborator. -/
inductive Error where
  | errorsNew (text : String)
  | callContractFailed (contract : Address) (method : String) (ret : Bytes)
  | contractDeployFailed (ret : Bytes)
  | insufficientFunds (account : Address) (coin : Coin)
  | foreign (text : String)
deriving DecidableEq

/-- An `ethtypes.Message` as built by `ethtypes.NewMessage`. -/
structure Message where
  From : Address
  To : Option Address
  Nonce : Nat
  Amount : Int
  GasLimit : Nat
  GasPrice : Int
  Data : Bytes
  AccessList : List Address
  CheckNonce : Bool
deriving DecidableEq

/-- Modelled from the spec: `evmtypes.MsgEthereumTxResponse` is declared outside
this file; section 3 gives a VMResult the return bytes and a `failed` flag,
read by `res.Ret` and `res.Failed()`. -/
structure MsgEthereumTxResponse where
  Ret : Bytes
  Failed : Bool
deriving DecidableEq

/-- The two governance flags of the EVM parameters read by `CallEVM`. -/
structure Params where
  EnableCreate : Bool
  EnableCall : Bool
deriving DecidableEq

/-- One entry per call to a collaborator that can write state. -/
inductive Event where
  | sendCoins (fromAddr toAddr : Address) (coin : Coin)
  | applyMessage (msg : Message) (coinbase : Address)
  | commitCachedContexts
  | setAutoContractForDenom (denom : String) (contract : Address)
deriving DecidableEq

/-- Ledger balances: account and denom to quantity. -/
abbrev Balances := Address → String → Nat

/-- The state behind an `sdk.Context`: ledger balances, the two registry maps of
the module, the store of the EVM keeper (of an arbitrary type `V`), and the
trace of collaborator calls made so far. -/
structure Context (V : Type) where
  balances : Balances
  externalContracts : String → Option Address
  autoContracts : String → Option Address
  evm : V
  trace : List Event

/-- The collaborators of the keeper, taken as parameters.
`ApplyMessage` stands for `NewEVM` followed by `ApplyMessage`: it reads the
ledger and the EVM store and, when the framework reports no error, yields the
response together with the ledger and EVM store it wrote into cached contexts. -/
structure Keeper (V : Type) where
  EVMModuleAddress : Address
  DefaultGasCap : Nat
  IsValidDenomToWrap : String → Bool
  CreateAddress : Address → Nat → Address
  Bin : Bytes
  Pack : String → List AbiArg → Except Error Bytes
  GetNonce : V → Address → Nat
  GetParams : V → Params
  GetCoinbaseAddress : V → Except Error Address
  ApplyMessage : Balances → V → Message → Address →
    Except Error (MsgEthereumTxResponse × Balances × V)

variable {V : Type}

/-- Append one event to the trace. -/
def Context.record (ctx : Context V) (ev : Event) : Context V :=
  { ctx with trace := ctx.trace ++ [ev] }

/-- Modelled from the spec: the registry getter `getExternalContractByDenom` is
declared in another file of the keeper; section 6 keys registry entries by
`(denom, tag)`. -/
def getExternalContractByDenom (ctx : Context V) (denom : String) : Option Address :=
  ctx.externalContracts denom

/-- Modelled from the spec: the registry getter `getAutoContractByDenom` is
declared in another file of the keeper; section 6 keys registry entries by
`(denom, tag)`. -/
def getAutoContractByDenom (ctx : Context V) (denom : String) : Option Address :=
  ctx.autoContracts denom

/-- Modelled from the spec: `GetContractByDenom` is declared in another file of
the keeper; section 4.2 `resolve(denom)` returns the external binding if
present, else the auto binding, else not found. -/
def GetContractByDenom (ctx : Context V) (denom : String) : Option Address :=
  match getExternalContractByDenom ctx denom with
  | some contract => some contract
  | none => getAutoContractByDenom ctx denom

/-- Modelled from the spec: `SetAutoContractForDenom` is declared in another file
of the keeper; section 4.2 `recordAuto(denom, contract)` writes the auto binding
of the denom, the last write winning. -/
def SetAutoContractForDenom (ctx : Context V) (denom : String) (contract : Address) :
    Context V :=
  { ctx with
    autoContracts := fun d => if d = denom then some contract else ctx.autoContracts d
    trace := ctx.trace ++ [Event.setAutoContractForDenom denom contract] }

/-- Modelled from the spec: the ledger transfer of the bank keeper (section 6
`transfer(from, to, amount)`, section 4.4 step 3): fails on insufficient balance
of the payer, otherwise debits the payer and then credits the payee. -/
def transfer (bal : Balances) (fromAddr toAddr : Address) (coin : Coin) :
    Except Error Balances :=
  if bal fromAddr coin.Denom < coin.Amount then
    Except.error (Error.insufficientFunds fromAddr coin)
  else
    let debited : Balances := fun a d =>
      if a = fromAddr ∧ d = coin.Denom then bal a d - coin.Amount else bal a d
    Except.ok (fun a d =>
      if a = toAddr ∧ d = coin.Denom then debited a d + coin.Amount else debited a d)

/-- The call `k.bankKeeper.SendCoins(ctx, from, to, sdk.NewCoins(coin))`. -/
def SendCoins (ctx : Context V) (fromAddr toAddr : Address) (coin : Coin) :
    Except Error Unit × Context V :=
  let ctx1 := ctx.record (Event.sendCoins fromAddr toAddr coin)
  match transfer ctx1.balances fromAddr toAddr coin with
  | Except.error err => (Except.error err, ctx1)
  | Except.ok bal => (Except.ok (), { ctx1 with balances := bal })

/-- The message `CallEVM` builds with `ethtypes.NewMessage` (evm.go lines 22-33). -/
def newMessage (k : Keeper V) (ctx : Context V) (toAddr : Option Address) (data : Bytes)
    (value : Int) : Message :=
  { From := k.EVMModuleAddress
    To := toAddr
    Nonce := k.GetNonce ctx.evm k.EVMModuleAddress
    Amount := value
    GasLimit := k.DefaultGasCap
    GasPrice := 0
    Data := data
    AccessList := []
    CheckNonce := false }

/-- The Go function `CallEVM` (evm.go lines 19-56). -/
def CallEVM (k : Keeper V) (ctx : Context V) (toAddr : Option Address) (data : Bytes)
    (value : Int) : Except Error (Message × MsgEthereumTxResponse) × Context V :=
  let msg := newMessage k ctx toAddr data value
  let params := k.GetParams ctx.evm
  if !params.EnableCreate && toAddr.isNone then
    (Except.error (Error.errorsNew "failed to create new contract"), ctx)
  else if !params.EnableCall && toAddr.isSome then
    (Except.error (Error.errorsNew "failed to call contract"), ctx)
  else
    match k.GetCoinbaseAddress ctx.evm with
    | Except.error _ =>
      (Except.error (Error.errorsNew "failed to obtain coinbase address"), ctx)
    | Except.ok coinbase =>
      let ctx1 := ctx.record (Event.applyMessage msg coinbase)
      match k.ApplyMessage ctx1.balances ctx1.evm msg coinbase with
      | Except.error err => (Except.error err, ctx1)
      | Except.ok (ret, bal, evm) =>
        (Except.ok (msg, ret),
          { ctx1 with
            balances := bal
            evm := evm
            trace := ctx1.trace ++ [Event.commitCachedContexts] })

/-- The Go function `CallModuleERC20` (evm.go lines 59-72). -/
def CallModuleERC20 (k : Keeper V) (ctx : Context V) (contract : Address)
    (method : String) (args : List AbiArg) : Except Error Bytes × Context V :=
  match k.Pack method args with
  | Except.error err => (Except.error err, ctx)
  | Except.ok data =>
    match CallEVM k ctx (some contract) data 0 with
    | (Except.error err, ctx1) => (Except.error err, ctx1)
    | (Except.ok (_, res), ctx1) =>
      if res.Failed then
        (Except.error (Error.callContractFailed contract method res.Ret), ctx1)
      else
        (Except.ok res.Ret, ctx1)

/-- The Go function `DeployModuleERC20` (evm.go lines 75-91). -/
def DeployModuleERC20 (k : Keeper V) (ctx : Context V) (denom : String) :
    Except Error Address × Context V :=
  match k.Pack "" [AbiArg.str denom, AbiArg.uint8 0] with
  | Except.error err => (Except.error err, ctx)
  | Except.ok ctor =>
    let data := k.Bin ++ ctor
    match CallEVM k ctx none data 0 with
    | (Except.error err, ctx1) => (Except.error err, ctx1)
    | (Except.ok (msg, res), ctx1) =>
      if res.Failed then
        (Except.error (Error.contractDeployFailed res.Ret), ctx1)
      else
        (Except.ok (k.CreateAddress k.EVMModuleAddress msg.Nonce), ctx1)

/-- The Go function `SendCoinFromNativeToERC20` (evm.go lines 94-122). -/
def SendCoinFromNativeToERC20 (k : Keeper V) (ctx : Context V) (sender : Address)
    (coin : Coin) (autoDeploy : Bool) : Except Error Unit × Context V :=
  if !k.IsValidDenomToWrap coin.Denom then
    (Except.error (Error.errorsNew "denom is not supported for wrapping"), ctx)
  else
    let resolved : Except Error Address × Context V :=
      match GetContractByDenom ctx coin.Denom with
      | some contract => (Except.ok contract, ctx)
      | none =>
        if !autoDeploy then
          (Except.error (Error.errorsNew "no contract found for the denom"), ctx)
        else
          match DeployModuleERC20 k ctx coin.Denom with
          | (Except.error err, ctx1) => (Except.error err, ctx1)
          | (Except.ok contract, ctx1) =>
            (Except.ok contract, SetAutoContractForDenom ctx1 coin.Denom contract)
    match resolved with
    | (Except.error err, ctx1) => (Except.error err, ctx1)
    | (Except.ok contract, ctx1) =>
      match SendCoins ctx1 sender contract coin with
      | (Except.error err, ctx2) => (Except.error err, ctx2)
      | (Except.ok _, ctx2) =>
        match CallModuleERC20 k ctx2 contract "mint_by_native"
            [AbiArg.address sender, AbiArg.bigInt coin.Amount] with
        | (Except.error err, ctx3) => (Except.error err, ctx3)
        | (Except.ok _, ctx3) => (Except.ok (), ctx3)

/-- The Go function `SendCoinFromERC20ToNative` (evm.go lines 125-149). -/
def SendCoinFromERC20ToNative (k : Keeper V) (ctx : Context V) (contract : Address)
    (receiver : Address) (coin : Coin) : Except Error Unit × Context V :=
  if !k.IsValidDenomToWrap coin.Denom then
    (Except.error (Error.errorsNew "denom is not supported for wrapping"), ctx)
  else
    let externalContract := getExternalContractByDenom ctx coin.Denom
    let autoContract := getAutoContractByDenom ctx coin.Denom
    let found : Bool :=
      decide (externalContract = some contract) || decide (autoContract = some contract)
    if !found then
      (Except.error (Error.errorsNew "the contract address is not mapped to the denom"), ctx)
    else
      match SendCoins ctx contract receiver coin with
      | (Except.error err, ctx1) => (Except.error err, ctx1)
      | (Except.ok _, ctx1) =>
        match CallModuleERC20 k ctx1 contract "burn_by_native"
            [AbiArg.address receiver, AbiArg.bigInt coin.Amount] with
        | (Except.error err, ctx2) => (Except.error err, ctx2)
        | (Except.ok _, ctx2) => (Except.ok (), ctx2)

/-- The Go function `ConvertCoinsFromNativeToERC20` (evm.go lines 152-159). -/
def ConvertCoinsFromNativeToERC20 (k : Keeper V) (ctx : Context V) (sender : Address)
    (coins : List Coin) (autoDeploy : Bool) : Except Error Unit × Context V :=
  match coins with
  | [] => (Except.ok (), ctx)
  | coin :: rest =>
    match SendCoinFromNativeToERC20 k ctx sender coin autoDeploy with
    | (Except.error err, ctx1) => (Except.error err, ctx1)
    | (Except.ok _, ctx1) => ConvertCoinsFromNativeToERC20 k ctx1 sender rest autoDeploy

/-- The Go function `ConvertCoinsFromERC20ToNative` (evm.go lines 162-169). -/
def ConvertCoinsFromERC20ToNative (k : Keeper V) (ctx : Context V) (contract : Address)
    (receiver : Address) (coins : List Coin) : Except Error Unit × Context V :=
  match coins with
  | [] => (Except.ok (), ctx)
  | coin :: rest =>
    match SendCoinFromERC20ToNative k ctx contract receiver coin with
    | (Except.error err, ctx1) => (Except.error err, ctx1)
    | (Except.ok _, ctx1) => ConvertCoinsFromERC20ToNative k ctx1 contract receiver rest

/-- Modelled from the spec: the scoped execution context of the host (section 5):
the effects of a request are merged into the outer state on success and
discarded when the request returns an error. -/
def runScoped {α : Type} (request : Context V → Except Error α × Context V)
    (ctx : Context V) : Except Error α × Context V :=
  match request ctx with
  | (Except.error err, _) => (Except.error err, ctx)
  | (Except.ok a, ctx1) => (Except.ok a, ctx1)

/-- The assumption that message execution leaves ledger balances alone (mint and
burn only move wrapped-token balances inside the VM). -/
def Keeper.LedgerNeutral (k : Keeper V) : Prop :=
  ∀ bal v msg cb res bal1 v1,
    k.ApplyMessage bal v msg cb = Except.ok (res, bal1, v1) → bal1 = bal

/-- The events a call appended: the trace after the call minus the trace before it. -/
def newEvents (before after : Context V) : List Event :=
  after.trace.drop before.trace.length

/-- Whether an event is the execution of a contract-creation message (`to == nil`). -/
def Event.isCreation : Event → Bool
  | Event.applyMessage msg _ => msg.To.isNone
  | _ => false

/-- Events that an EVM call towards `toAddr` can append. -/
def evmEventFor (toAddr : Option Address) (ev : Event) : Prop :=
  ev = Event.commitCachedContexts ∨ ∃ msg cb, ev = Event.applyMessage msg cb ∧ msg.To = toAddr

/-- Lines 112-121 of `SendCoinFromNativeToERC20`, as a function of the contract
the earlier lines resolved: the ledger transfer followed by the mint call. Used
to state what the embedded function does once the contract is known. -/
def transferThenMint (k : Keeper V) (ctx : Context V) (sender contract : Address)
    (coin : Coin) : Except Error Unit × Context V :=
  match SendCoins ctx sender contract coin with
  | (Except.error err, ctx2) => (Except.error err, ctx2)
  | (Except.ok _, ctx2) =>
    match CallModuleERC20 k ctx2 contract "mint_by_native"
        [AbiArg.address sender, AbiArg.bigInt coin.Amount] with
    | (Except.error err, ctx3) => (Except.error err, ctx3)
    | (Except.ok _, ctx3) => (Except.ok (), ctx3)

/-! ## A small concrete instance, used to evaluate the definitions -/

/-- The store of a toy EVM keeper: the module nonce, the parameters, and a switch
that makes every execution report a VM failure. -/
structure DemoStore where
  nonce : Nat
  params : Params
  reverts : Bool

/-- A toy keeper: two wrappable denoms, every execution bumps the module nonce,
leaves the ledger alone and fails exactly when the store says so. -/
def demoKeeper : Keeper DemoStore :=
  { EVMModuleAddress := 100
    DefaultGasCap := 25000000
    IsValidDenomToWrap := fun d => decide (d = "ibc/atom") || decide (d = "ibc/osmo")
    CreateAddress := fun a n => 1000 * a + n
    Bin := [96, 128]
    Pack := fun method _ => Except.ok [method.length]
    GetNonce := fun v a => if a = 100 then v.nonce else 0
    GetParams := fun v => v.params
    GetCoinbaseAddress := fun _ => Except.ok 7
    ApplyMessage := fun bal v _ _ =>
      Except.ok ({ Ret := [], Failed := v.reverts }, bal, { v with nonce := v.nonce + 1 }) }

/-- A toy context: accounts 1 and 50 hold 10 of each wrappable denom; `ibc/atom` has the
external binding 50 and the auto binding 60; `ibc/osmo` has no binding. -/
def demoCtx (reverts enableCreate : Bool) : Context DemoStore :=
  { balances := fun a d =>
      if (a = 1 ∨ a = 50) ∧ (d = "ibc/atom" ∨ d = "ibc/osmo") then 10 else 0
    externalContracts := fun d => if d = "ibc/atom" then some 50 else none
    autoContracts := fun d => if d = "ibc/atom" then some 60 else none
    evm := { nonce := 0, params := { EnableCreate := enableCreate, EnableCall := true },
             reverts := reverts }
    trace := [] }

/-! ## Inversion and frame lemmas -/

theorem CallEVM_ok_inv (k : Keeper V) (ctx ctx1 : Context V) (toAddr : Option Address)
    (data : Bytes) (value : Int) (msg : Message) (res : MsgEthereumTxResponse)
    (h : CallEVM k ctx toAddr data value = (Except.ok (msg, res), ctx1)) :
    msg = newMessage k ctx toAddr data value ∧
    ∃ cb bal evm, k.GetCoinbaseAddress ctx.evm = Except.ok cb ∧
      k.ApplyMessage ctx.balances ctx.evm msg cb = Except.ok (res, bal, evm) ∧
      ctx1 = { balances := bal
               externalContracts := ctx.externalContracts
               autoContracts := ctx.autoContracts
               evm := evm
               trace := ctx.trace ++ [Event.applyMessage msg cb, Event.commitCachedContexts] } := by
  unfold CallEVM at h
  simp only [Context.record] at h
  split at h
  · simp at h
  · split at h
    · simp at h
    · split at h
      · simp at h
      · rename_i cb hcb
        split at h
        · simp at h
        · rename_i ret bal evm happ
          simp only [Prod.mk.injEq, Except.ok.injEq] at h
          obtain ⟨⟨hm, hr⟩, hc⟩ := h
          subst hm hr
          refine ⟨rfl, cb, bal, evm, hcb, happ, ?_⟩
          rw [← hc]
          simp

theorem CallEVM_error_inv (k : Keeper V) (ctx ctx1 : Context V) (toAddr : Option Address)
    (data : Bytes) (value : Int) (err : Error)
    (h : CallEVM k ctx toAddr data value = (Except.error err, ctx1)) :
    ctx1 = ctx ∨
    ∃ cb, k.GetCoinbaseAddress ctx.evm = Except.ok cb ∧
      k.ApplyMessage ctx.balances ctx.evm (newMessage k ctx toAddr data value) cb
        = Except.error err ∧
      ctx1 = ctx.record (Event.applyMessage (newMessage k ctx toAddr data value) cb) := by
  unfold CallEVM at h
  simp only [Context.record] at h
  split at h
  · simp at h; exact Or.inl h.2.symm
  · split at h
    · simp at h; exact Or.inl h.2.symm
    · split at h
      · simp at h; exact Or.inl h.2.symm
      · rename_i cb hcb
        split at h
        · rename_i e happ
          simp only [Prod.mk.injEq, Except.error.injEq] at h
          obtain ⟨he, hc⟩ := h
          subst he
          exact Or.inr ⟨cb, hcb, happ, by rw [← hc]; rfl⟩
        · simp at h

theorem CallEVM_create_disabled (k : Keeper V) (ctx : Context V) (data : Bytes) (value : Int)
    (h : (k.GetParams ctx.evm).EnableCreate = false) :
    CallEVM k ctx none data value
      = (Except.error (Error.errorsNew "failed to create new contract"), ctx) := by
  simp [CallEVM, h]

theorem SendCoins_ok_inv (ctx ctx1 : Context V) (a b : Address) (coin : Coin)
    (h : SendCoins ctx a b coin = (Except.ok (), ctx1)) :
    ∃ bal, transfer ctx.balances a b coin = Except.ok bal ∧
      ctx1 = { balances := bal
               externalContracts := ctx.externalContracts
               autoContracts := ctx.autoContracts
               evm := ctx.evm
               trace := ctx.trace ++ [Event.sendCoins a b coin] } := by
  unfold SendCoins at h
  simp only [Context.record] at h
  split at h
  · simp at h
  · rename_i bal hb
    simp only [Prod.mk.injEq, true_and] at h
    exact ⟨bal, hb, h.symm⟩

theorem SendCoins_error_inv (ctx ctx1 : Context V) (a b : Address) (coin : Coin) (err : Error)
    (h : SendCoins ctx a b coin = (Except.error err, ctx1)) :
    ctx1 = ctx.record (Event.sendCoins a b coin) := by
  unfold SendCoins at h
  simp only [Context.record] at h
  split at h
  · simp only [Prod.mk.injEq] at h
    rw [← h.2]; rfl
  · simp at h

theorem CallModuleERC20_ok_inv (k : Keeper V) (ctx ctx1 : Context V) (contract : Address)
    (method : String) (args : List AbiArg) (ret : Bytes)
    (h : CallModuleERC20 k ctx contract method args = (Except.ok ret, ctx1)) :
    ∃ data cb res bal evm, k.Pack method args = Except.ok data ∧
      k.GetCoinbaseAddress ctx.evm = Except.ok cb ∧
      k.ApplyMessage ctx.balances ctx.evm (newMessage k ctx (some contract) data 0) cb
        = Except.ok (res, bal, evm) ∧
      res.Failed = false ∧ res.Ret = ret ∧
      ctx1 = { balances := bal
               externalContracts := ctx.externalContracts
               autoContracts := ctx.autoContracts
               evm := evm
               trace := ctx.trace ++
                 [Event.applyMessage (newMessage k ctx (some contract) data 0) cb,
                  Event.commitCachedContexts] } := by
  unfold CallModuleERC20 at h
  split at h
  · simp at h
  · rename_i data hp
    split at h
    · simp at h
    · rename_i msg res c1 hcall
      obtain ⟨hm, cb, bal, evm, hcb, happ, hc⟩ := CallEVM_ok_inv k ctx c1 _ _ _ msg res hcall
      subst hm
      split at h
      · simp at h
      · rename_i hf
        simp only [Prod.mk.injEq, Except.ok.injEq] at h
        refine ⟨data, cb, res, bal, evm, hp, hcb, happ, by simpa using hf, h.1, ?_⟩
        rw [← h.2, hc]

theorem DeployModuleERC20_ok_inv (k : Keeper V) (ctx ctx1 : Context V) (denom : String)
    (addr : Address)
    (h : DeployModuleERC20 k ctx denom = (Except.ok addr, ctx1)) :
    addr = k.CreateAddress k.EVMModuleAddress (k.GetNonce ctx.evm k.EVMModuleAddress) ∧
    ∃ ctor cb res bal evm,
      k.Pack "" [AbiArg.str denom, AbiArg.uint8 0] = Except.ok ctor ∧
      k.GetCoinbaseAddress ctx.evm = Except.ok cb ∧
      k.ApplyMessage ctx.balances ctx.evm (newMessage k ctx none (k.Bin ++ ctor) 0) cb
        = Except.ok (res, bal, evm) ∧
      res.Failed = false ∧
      ctx1 = { balances := bal
               externalContracts := ctx.externalContracts
               autoContracts := ctx.autoContracts
               evm := evm
               trace := ctx.trace ++
                 [Event.applyMessage (newMessage k ctx none (k.Bin ++ ctor) 0) cb,
                  Event.commitCachedContexts] } := by
  unfold DeployModuleERC20 at h
  split at h
  · simp at h
  · rename_i ctor hp
    simp only at h
    split at h
    · simp at h
    · rename_i msg res c1 hcall
      obtain ⟨hm, cb, bal, evm, hcb, happ, hc⟩ := CallEVM_ok_inv k ctx c1 _ _ _ msg res hcall
      subst hm
      split at h
      · simp at h
      · rename_i hf
        simp only [Prod.mk.injEq, Except.ok.injEq] at h
        refine ⟨?_, ctor, cb, res, bal, evm, hp, hcb, happ, by simpa using hf, ?_⟩
        · rw [← h.1]; rfl
        · rw [← h.2, hc]

/-- What a successful `SendCoinFromNativeToERC20` went through: the denom is
wrappable, a contract was found or deployed and recorded, the transfer and the
mint call both succeeded. -/
theorem SendCoinFromNativeToERC20_ok_inv (k : Keeper V) (ctx ctx3 : Context V)
    (sender : Address) (coin : Coin) (autoDeploy : Bool)
    (h : SendCoinFromNativeToERC20 k ctx sender coin autoDeploy = (Except.ok (), ctx3)) :
    k.IsValidDenomToWrap coin.Denom = true ∧
    ∃ contract ctx1 ctx2 ret,
      ((GetContractByDenom ctx coin.Denom = some contract ∧ ctx1 = ctx) ∨
       (GetContractByDenom ctx coin.Denom = none ∧ autoDeploy = true ∧
        ∃ ctxd, DeployModuleERC20 k ctx coin.Denom = (Except.ok contract, ctxd) ∧
          ctx1 = SetAutoContractForDenom ctxd coin.Denom contract)) ∧
      SendCoins ctx1 sender contract coin = (Except.ok (), ctx2) ∧
      CallModuleERC20 k ctx2 contract "mint_by_native"
        [AbiArg.address sender, AbiArg.bigInt coin.Amount] = (Except.ok ret, ctx3) := by
  unfold SendCoinFromNativeToERC20 at h
  split at h
  · simp at h
  · rename_i hv
    refine ⟨by simpa using hv, ?_⟩
    simp only at h
    split at h
    · simp at h
    · rename_i contract ctx1 hres
      split at h
      · simp at h
      · rename_i u ctx2 hsend
        split at h
        · simp at h
        · rename_i ret ctx3b hcall
          simp only [Prod.mk.injEq, true_and] at h
          subst h
          refine ⟨contract, ctx1, ctx2, ret, ?_, hsend, hcall⟩
          split at hres
          · rename_i c hfound
            simp only [Prod.mk.injEq, Except.ok.injEq] at hres
            left
            rw [← hres.1, ← hres.2]
            exact ⟨hfound, rfl⟩
          · rename_i hnone
            split at hres
            · simp at hres
            · rename_i hauto
              split at hres
              · simp at hres
              · rename_i c ctxd hdep
                simp only [Prod.mk.injEq, Except.ok.injEq] at hres
                right
                refine ⟨hnone, by simpa using hauto, ctxd, ?_, ?_⟩
                · rw [← hres.1]; exact hdep
                · rw [← hres.2, ← hres.1]

/-- What a successful `SendCoinFromERC20ToNative` went through. -/
theorem SendCoinFromERC20ToNative_ok_inv (k : Keeper V) (ctx ctx2 : Context V)
    (contract receiver : Address) (coin : Coin)
    (h : SendCoinFromERC20ToNative k ctx contract receiver coin = (Except.ok (), ctx2)) :
    k.IsValidDenomToWrap coin.Denom = true ∧
    (getExternalContractByDenom ctx coin.Denom = some contract ∨
      getAutoContractByDenom ctx coin.Denom = some contract) ∧
    ∃ ctx1 ret,
      SendCoins ctx contract receiver coin = (Except.ok (), ctx1) ∧
      CallModuleERC20 k ctx1 contract "burn_by_native"
        [AbiArg.address receiver, AbiArg.bigInt coin.Amount] = (Except.ok ret, ctx2) := by
  unfold SendCoinFromERC20ToNative at h
  split at h
  · simp at h
  · rename_i hv
    refine ⟨by simpa using hv, ?_⟩
    simp only at h
    split at h
    · simp at h
    · rename_i hfound
      refine ⟨?_, ?_⟩
      · by_contra hb
        push_neg at hb
        exact hfound (by simp [hb.1, hb.2])
      split at h
      · simp at h
      · rename_i u ctx1 hsend
        split at h
        · simp at h
        · rename_i ret ctx2b hcall
          simp only [Prod.mk.injEq, true_and] at h
          subst h
          exact ⟨ctx1, ret, hsend, hcall⟩

theorem CallEVM_frame (k : Keeper V) (ctx : Context V) (toAddr : Option Address)
    (data : Bytes) (value : Int) :
    (CallEVM k ctx toAddr data value).2.externalContracts = ctx.externalContracts ∧
    (CallEVM k ctx toAddr data value).2.autoContracts = ctx.autoContracts ∧
    ∃ rest, (CallEVM k ctx toAddr data value).2.trace = ctx.trace ++ rest ∧
      ∀ ev ∈ rest, evmEventFor toAddr ev := by
  unfold CallEVM
  simp only [Context.record]
  split
  · exact ⟨rfl, rfl, [], by simp, by simp⟩
  · split
    · exact ⟨rfl, rfl, [], by simp, by simp⟩
    · split
      · exact ⟨rfl, rfl, [], by simp, by simp⟩
      · rename_i cb hcb
        split
        · refine ⟨rfl, rfl, [Event.applyMessage (newMessage k ctx toAddr data value) cb],
            rfl, ?_⟩
          intro ev hev
          simp only [List.mem_singleton] at hev
          exact Or.inr ⟨_, cb, hev, rfl⟩
        · refine ⟨rfl, rfl, [Event.applyMessage (newMessage k ctx toAddr data value) cb,
            Event.commitCachedContexts], by simp, ?_⟩
          intro ev hev
          simp only [List.mem_cons, List.mem_singleton, List.not_mem_nil, or_false] at hev
          rcases hev with hev | hev
          · exact Or.inr ⟨_, cb, hev, rfl⟩
          · exact Or.inl hev

theorem CallModuleERC20_frame (k : Keeper V) (ctx : Context V) (contract : Address)
    (method : String) (args : List AbiArg) :
    (CallModuleERC20 k ctx contract method args).2.externalContracts
      = ctx.externalContracts ∧
    (CallModuleERC20 k ctx contract method args).2.autoContracts = ctx.autoContracts ∧
    ∃ rest, (CallModuleERC20 k ctx contract method args).2.trace = ctx.trace ++ rest ∧
      ∀ ev ∈ rest, evmEventFor (some contract) ev := by
  unfold CallModuleERC20
  split
  · exact ⟨rfl, rfl, [], by simp, by simp⟩
  · rename_i data hp
    have hf := CallEVM_frame k ctx (some contract) data 0
    split
    · rename_i err ctx1 hcall
      rw [hcall] at hf
      exact hf
    · rename_i msg res ctx1 hcall
      rw [hcall] at hf
      split <;> exact hf

theorem SendCoins_frame (ctx : Context V) (a b : Address) (coin : Coin) :
    (SendCoins ctx a b coin).2.externalContracts = ctx.externalContracts ∧
    (SendCoins ctx a b coin).2.autoContracts = ctx.autoContracts ∧
    (SendCoins ctx a b coin).2.evm = ctx.evm ∧
    (SendCoins ctx a b coin).2.trace = ctx.trace ++ [Event.sendCoins a b coin] := by
  unfold SendCoins
  simp only [Context.record]
  split <;> exact ⟨rfl, rfl, rfl, rfl⟩

theorem SendCoinFromNativeToERC20_found (k : Keeper V) (ctx : Context V) (sender : Address)
    (coin : Coin) (autoDeploy : Bool) (contract : Address)
    (hvalid : k.IsValidDenomToWrap coin.Denom = true)
    (hfound : GetContractByDenom ctx coin.Denom = some contract) :
    SendCoinFromNativeToERC20 k ctx sender coin autoDeploy
      = transferThenMint k ctx sender contract coin := by
  simp only [SendCoinFromNativeToERC20, hvalid, hfound, transferThenMint]
  rfl

theorem SendCoinFromNativeToERC20_deployed (k : Keeper V) (ctx ctxd : Context V)
    (sender : Address) (coin : Coin) (contract : Address)
    (hvalid : k.IsValidDenomToWrap coin.Denom = true)
    (hnone : GetContractByDenom ctx coin.Denom = none)
    (hdep : DeployModuleERC20 k ctx coin.Denom = (Except.ok contract, ctxd)) :
    SendCoinFromNativeToERC20 k ctx sender coin true
      = transferThenMint k (SetAutoContractForDenom ctxd coin.Denom contract) sender
          contract coin := by
  simp only [SendCoinFromNativeToERC20, hvalid, hnone, hdep, transferThenMint]
  rfl

theorem transferThenMint_frame (k : Keeper V) (ctx : Context V) (sender contract : Address)
    (coin : Coin) :
    (transferThenMint k ctx sender contract coin).2.externalContracts
      = ctx.externalContracts ∧
    (transferThenMint k ctx sender contract coin).2.autoContracts = ctx.autoContracts ∧
    ∃ rest, (transferThenMint k ctx sender contract coin).2.trace
        = ctx.trace ++ Event.sendCoins sender contract coin :: rest ∧
      ∀ ev ∈ rest, evmEventFor (some contract) ev := by
  have hs := SendCoins_frame ctx sender contract coin
  unfold transferThenMint
  split
  · rename_i err ctx2 hsend
    rw [hsend] at hs
    exact ⟨hs.1, hs.2.1, [], hs.2.2.2, by simp⟩
  · rename_i u ctx2 hsend
    rw [hsend] at hs
    obtain ⟨he, ha, rest, hrest, hev⟩ := CallModuleERC20_frame k ctx2 contract "mint_by_native"
      [AbiArg.address sender, AbiArg.bigInt coin.Amount]
    have key : ∀ out : Except Error Unit × Context V,
        out.2 = (CallModuleERC20 k ctx2 contract "mint_by_native"
          [AbiArg.address sender, AbiArg.bigInt coin.Amount]).2 →
        out.2.externalContracts = ctx.externalContracts ∧
        out.2.autoContracts = ctx.autoContracts ∧
        ∃ rest, out.2.trace = ctx.trace ++ Event.sendCoins sender contract coin :: rest ∧
          ∀ ev ∈ rest, evmEventFor (some contract) ev := by
      intro out hout
      rw [hout, he, ha, hrest]
      refine ⟨hs.1, hs.2.1, rest, ?_, hev⟩
      simp only at hs
      rw [hs.2.2.2]
      simp
    split
    · rename_i err ctx3 hcall
      exact key _ (by rw [hcall])
    · rename_i r ctx3 hcall
      exact key _ (by rw [hcall])

/-- The trace a successful transfer-and-mint appends. -/
theorem transferThenMint_ok_trace (k : Keeper V) (ctx ctx3 : Context V)
    (sender contract : Address) (coin : Coin)
    (h : transferThenMint k ctx sender contract coin = (Except.ok (), ctx3)) :
    ∃ data cb bal, k.Pack "mint_by_native" [AbiArg.address sender, AbiArg.bigInt coin.Amount]
        = Except.ok data ∧
      transfer ctx.balances sender contract coin = Except.ok bal ∧
      ctx3.trace = ctx.trace ++
        [Event.sendCoins sender contract coin,
         Event.applyMessage
           { From := k.EVMModuleAddress
             To := some contract
             Nonce := k.GetNonce ctx.evm k.EVMModuleAddress
             Amount := 0
             GasLimit := k.DefaultGasCap
             GasPrice := 0
             Data := data
             AccessList := []
             CheckNonce := false } cb,
         Event.commitCachedContexts] ∧
      ctx3.externalContracts = ctx.externalContracts ∧
      ctx3.autoContracts = ctx.autoContracts ∧
      (k.LedgerNeutral → ctx3.balances = bal) := by
  unfold transferThenMint at h
  split at h
  · simp at h
  · rename_i u ctx2 hsend
    obtain ⟨bal, hbal, hctx2⟩ := SendCoins_ok_inv ctx ctx2 sender contract coin hsend
    split at h
    · simp at h
    · rename_i r ctx3b hcall
      simp only [Prod.mk.injEq, true_and] at h
      subst h
      obtain ⟨data, cb, res, bal2, evm, hp, _, happ, _, _, hc⟩ :=
        CallModuleERC20_ok_inv k ctx2 ctx3b contract _ _ r hcall
      refine ⟨data, cb, bal, hp, hbal, ?_, ?_, ?_, ?_⟩
      · rw [hc, hctx2]; simp [newMessage]
      · rw [hc, hctx2]
      · rw [hc, hctx2]
      · intro hn
        rw [hc]
        simp only
        rw [hn _ _ _ _ _ _ _ happ, hctx2]

theorem newEvents_of_trace (before after : Context V) (l : List Event)
    (h : after.trace = before.trace ++ l) : newEvents before after = l := by
  simp [newEvents, h]

/-- Paying an amount and getting the same amount paid back restores the ledger. -/
theorem transfer_roundtrip (bal bal1 bal2 : Balances) (a c : Address) (coin : Coin)
    (h1 : transfer bal a c coin = Except.ok bal1)
    (h2 : transfer bal1 c a coin = Except.ok bal2) : bal2 = bal := by
  unfold transfer at h1 h2
  split at h1
  · cases h1
  · rename_i hle
    simp only [Except.ok.injEq] at h1
    subst h1
    split at h2
    · cases h2
    · simp only [Except.ok.injEq] at h2
      subst h2
      funext x d
      by_cases hd : d = coin.Denom
      · subst hd
        by_cases hxa : x = a <;> by_cases hxc : x = c
        · subst hxa hxc
          simp at hle ⊢
          omega
        · subst hxa
          have hca : ¬ c = x := fun h => hxc h.symm
          simp [hxc, hca] at hle ⊢
          omega
        · subst hxc
          have hax : ¬ a = x := fun h => hxa h.symm
          simp [hxa, hax]
        · simp [hxa, hxc]
      · simp [hd]

theorem demoKeeper_ledgerNeutral : demoKeeper.LedgerNeutral := by
  intro bal v msg cb res bal1 v1 h
  simp only [demoKeeper, Except.ok.injEq, Prod.mk.injEq] at h
  exact h.2.1.symm

theorem CallEVM_balances (k : Keeper V) (hneutral : k.LedgerNeutral) (ctx : Context V)
    (toAddr : Option Address) (data : Bytes) (value : Int) :
    (CallEVM k ctx toAddr data value).2.balances = ctx.balances := by
  unfold CallEVM
  simp only [Context.record]
  split
  · rfl
  · split
    · rfl
    · split
      · rfl
      · split
        · rfl
        · rename_i happ
          exact hneutral _ _ _ _ _ _ _ happ

theorem CallModuleERC20_balances (k : Keeper V) (hneutral : k.LedgerNeutral)
    (ctx : Context V) (contract : Address) (method : String) (args : List AbiArg) :
    (CallModuleERC20 k ctx contract method args).2.balances = ctx.balances := by
  unfold CallModuleERC20
  split
  · rfl
  · rename_i data hp
    have hb := CallEVM_balances k hneutral ctx (some contract) data 0
    split
    · rename_i hcall
      rw [hcall] at hb
      exact hb
    · rename_i hcall
      rw [hcall] at hb
      split <;> exact hb

theorem DeployModuleERC20_balances (k : Keeper V) (hneutral : k.LedgerNeutral)
    (ctx : Context V) (denom : String) :
    (DeployModuleERC20 k ctx denom).2.balances = ctx.balances := by
  unfold DeployModuleERC20
  split
  · rfl
  · rename_i ctor hp
    have hb := CallEVM_balances k hneutral ctx none (k.Bin ++ ctor) 0
    simp only
    split
    · rename_i hcall
      rw [hcall] at hb
      exact hb
    · rename_i hcall
      rw [hcall] at hb
      split <;> exact hb

/-- After a successful transfer the payer holds the amount less, unless the payer
is also the payee. -/
theorem transfer_debits (bal bal1 : Balances) (a c : Address) (coin : Coin)
    (h : transfer bal a c coin = Except.ok bal1) (hac : a ≠ c) :
    bal1 a coin.Denom + coin.Amount = bal a coin.Denom := by
  unfold transfer at h
  split at h
  · cases h
  · rename_i hle
    simp only [Except.ok.injEq] at h
    subst h
    simp [hac]
    omega

theorem ConvertCoinsFromNativeToERC20_append (k : Keeper V) (sender : Address)
    (autoDeploy : Bool) (pre rest : List Coin) (ctx ctxn : Context V)
    (h : ConvertCoinsFromNativeToERC20 k ctx sender pre autoDeploy = (Except.ok (), ctxn)) :
    ConvertCoinsFromNativeToERC20 k ctx sender (pre ++ rest) autoDeploy
      = ConvertCoinsFromNativeToERC20 k ctxn sender rest autoDeploy := by
  induction pre generalizing ctx with
  | nil =>
    simp only [ConvertCoinsFromNativeToERC20, Prod.mk.injEq, true_and] at h
    subst h
    rfl
  | cons coin tl ih =>
    simp only [List.cons_append, ConvertCoinsFromNativeToERC20] at h ⊢
    split at h
    · simp at h
    · rename_i u ctx1 hc
      exact ih ctx1 h

theorem ConvertCoinsFromERC20ToNative_append (k : Keeper V) (contract receiver : Address)
    (pre rest : List Coin) (ctx ctxn : Context V)
    (h : ConvertCoinsFromERC20ToNative k ctx contract receiver pre = (Except.ok (), ctxn)) :
    ConvertCoinsFromERC20ToNative k ctx contract receiver (pre ++ rest)
      = ConvertCoinsFromERC20ToNative k ctxn contract receiver rest := by
  induction pre generalizing ctx with
  | nil =>
    simp only [ConvertCoinsFromERC20ToNative, Prod.mk.injEq, true_and] at h
    subst h
    rfl
  | cons coin tl ih =>
    simp only [List.cons_append, ConvertCoinsFromERC20ToNative] at h ⊢
    split at h
    · simp at h
    · rename_i u ctx1 hc
      exact ih ctx1 h

/-! ## C1: allow-list enforcement -/

/-- C1: for a coin whose denom is not wrappable, `SendCoinFromNativeToERC20` and
`SendCoinFromERC20ToNative` both return the unsupported-denom error and leave the
context exactly as it was (balances, registry, EVM store with the module nonce,
and the trace of collaborator calls: no transfer, no message, no registry write),
for every sender, receiver, contract and autoDeploy value. -/
theorem unsupported_denom_rejected (k : Keeper V) (ctx : Context V)
    (sender receiver contract : Address) (coin : Coin) (autoDeploy : Bool)
    (h : k.IsValidDenomToWrap coin.Denom = false) :
    SendCoinFromNativeToERC20 k ctx sender coin autoDeploy
      = (Except.error (Error.errorsNew "denom is not supported for wrapping"), ctx) ∧
    SendCoinFromERC20ToNative k ctx contract receiver coin
      = (Except.error (Error.errorsNew "denom is not supported for wrapping"), ctx) := by
  constructor
  · simp [SendCoinFromNativeToERC20, h]
  · simp [SendCoinFromERC20ToNative, h]

theorem unsupported_denom_rejected_witness :
    SendCoinFromNativeToERC20 demoKeeper (demoCtx false true) 1 ⟨"stake", 5⟩ true
      = (Except.error (Error.errorsNew "denom is not supported for wrapping"),
          demoCtx false true) ∧
    SendCoinFromERC20ToNative demoKeeper (demoCtx false true) 50 1 ⟨"stake", 5⟩
      = (Except.error (Error.errorsNew "denom is not supported for wrapping"),
          demoCtx false true) :=
  unsupported_denom_rejected demoKeeper (demoCtx false true) 1 1 50 ⟨"stake", 5⟩ true
    (by decide)

/-! ## C10: the feature flags of `CallEVM` -/

/-- C10: `CallEVM` returns an error and leaves the context untouched (no message
executed, nothing committed) when `to` is nil and `EnableCreate` is false, or `to`
is non-nil and `EnableCall` is false; in every other case the flag check passes
and the outcome is that of coinbase resolution followed by message execution. -/
theorem CallEVM_feature_flags (k : Keeper V) (ctx : Context V) (toAddr : Option Address)
    (data : Bytes) (value : Int) :
    (toAddr = none ∧ (k.GetParams ctx.evm).EnableCreate = false →
      CallEVM k ctx toAddr data value
        = (Except.error (Error.errorsNew "failed to create new contract"), ctx)) ∧
    (toAddr ≠ none ∧ (k.GetParams ctx.evm).EnableCall = false →
      CallEVM k ctx toAddr data value
        = (Except.error (Error.errorsNew "failed to call contract"), ctx)) ∧
    (¬ (toAddr = none ∧ (k.GetParams ctx.evm).EnableCreate = false) ∧
      ¬ (toAddr ≠ none ∧ (k.GetParams ctx.evm).EnableCall = false) →
      (∀ e, k.GetCoinbaseAddress ctx.evm = Except.error e →
        CallEVM k ctx toAddr data value
          = (Except.error (Error.errorsNew "failed to obtain coinbase address"), ctx)) ∧
      (∀ cb, k.GetCoinbaseAddress ctx.evm = Except.ok cb →
        (∀ err, k.ApplyMessage ctx.balances ctx.evm (newMessage k ctx toAddr data value) cb
            = Except.error err →
          CallEVM k ctx toAddr data value
            = (Except.error err,
                ctx.record (Event.applyMessage (newMessage k ctx toAddr data value) cb))) ∧
        (∀ res bal evm,
          k.ApplyMessage ctx.balances ctx.evm (newMessage k ctx toAddr data value) cb
            = Except.ok (res, bal, evm) →
          CallEVM k ctx toAddr data value
            = (Except.ok (newMessage k ctx toAddr data value, res),
                { balances := bal
                  externalContracts := ctx.externalContracts
                  autoContracts := ctx.autoContracts
                  evm := evm
                  trace := ctx.trace ++
                    [Event.applyMessage (newMessage k ctx toAddr data value) cb,
                     Event.commitCachedContexts] })))) := by
  refine ⟨?_, ?_, ?_⟩
  · rintro ⟨hto, hc⟩
    simp [CallEVM, hto, hc]
  · rintro ⟨hto, hc⟩
    cases toAddr with
    | none => exact absurd rfl hto
    | some a => simp [CallEVM, hc]
  · rintro ⟨h1, h2⟩
    have hg1 : (!(k.GetParams ctx.evm).EnableCreate && toAddr.isNone) = false := by
      cases hto : toAddr <;> cases hc : (k.GetParams ctx.evm).EnableCreate <;> simp_all
    have hg2 : (!(k.GetParams ctx.evm).EnableCall && toAddr.isSome) = false := by
      cases hto : toAddr <;> cases hc : (k.GetParams ctx.evm).EnableCall <;> simp_all
    refine ⟨?_, ?_⟩
    · intro e he
      simp [CallEVM, hg1, hg2, he]
    · intro cb hcb
      refine ⟨?_, ?_⟩
      · intro err happ
        simp [CallEVM, hg1, hg2, hcb, Context.record, happ]
      · intro res bal evm happ
        simp [CallEVM, hg1, hg2, hcb, Context.record, happ]

theorem CallEVM_feature_flags_witness :
    CallEVM demoKeeper (demoCtx false false) none [96] 0
      = (Except.error (Error.errorsNew "failed to create new contract"),
          demoCtx false false) :=
  (CallEVM_feature_flags demoKeeper (demoCtx false false) none [96] 0).1 ⟨rfl, rfl⟩

/-! ## C9: the address returned by `DeployModuleERC20` -/

/-- C9: whenever `DeployModuleERC20` succeeds, the address it returns is
`CreateAddress(EVMModuleAddress, n)` with `n` the module nonce read from the
context before the creation message ran; two keepers that agree on the module
address, the derivation and the nonce return the same address whatever their VMs
answer; and when the VM result is Failed the operation returns the deploy-failed
error and no address. -/
theorem DeployModuleERC20_address (k : Keeper V) (ctx : Context V) (denom : String) :
    (∀ addr ctx1, DeployModuleERC20 k ctx denom = (Except.ok addr, ctx1) →
      addr = k.CreateAddress k.EVMModuleAddress (k.GetNonce ctx.evm k.EVMModuleAddress)) ∧
    (∀ (k2 : Keeper V) addr addr2 ctx1 ctx2,
      k2.EVMModuleAddress = k.EVMModuleAddress → k2.CreateAddress = k.CreateAddress →
      k2.GetNonce = k.GetNonce →
      DeployModuleERC20 k ctx denom = (Except.ok addr, ctx1) →
      DeployModuleERC20 k2 ctx denom = (Except.ok addr2, ctx2) → addr2 = addr) ∧
    (∀ ctor msg res ctx1,
      k.Pack "" [AbiArg.str denom, AbiArg.uint8 0] = Except.ok ctor →
      CallEVM k ctx none (k.Bin ++ ctor) 0 = (Except.ok (msg, res), ctx1) →
      res.Failed = true →
      DeployModuleERC20 k ctx denom
        = (Except.error (Error.contractDeployFailed res.Ret), ctx1)) := by
  refine ⟨?_, ?_, ?_⟩
  · intro addr ctx1 h
    exact (DeployModuleERC20_ok_inv k ctx ctx1 denom addr h).1
  · intro k2 addr addr2 ctx1 ctx2 hm hc hn h1 h2
    rw [(DeployModuleERC20_ok_inv k ctx ctx1 denom addr h1).1,
      (DeployModuleERC20_ok_inv k2 ctx ctx2 denom addr2 h2).1, hm, hc, hn]
  · intro ctor msg res ctx1 hp hcall hf
    simp [DeployModuleERC20, hp, hcall, hf]

theorem DeployModuleERC20_address_witness :
    (100000 : Address) = demoKeeper.CreateAddress demoKeeper.EVMModuleAddress
        (demoKeeper.GetNonce (demoCtx false true).evm demoKeeper.EVMModuleAddress) ∧
    DeployModuleERC20 demoKeeper (demoCtx true true) "ibc/osmo"
      = (Except.error (Error.contractDeployFailed []),
          (CallEVM demoKeeper (demoCtx true true) none [96, 128, 0] 0).2) :=
  ⟨(DeployModuleERC20_address demoKeeper (demoCtx false true) "ibc/osmo").1 100000
      (DeployModuleERC20 demoKeeper (demoCtx false true) "ibc/osmo").2 rfl,
   (DeployModuleERC20_address demoKeeper (demoCtx true true) "ibc/osmo").2.2 [0]
      (newMessage demoKeeper (demoCtx true true) none [96, 128, 0] 0)
      ⟨[], true⟩ (CallEVM demoKeeper (demoCtx true true) none [96, 128, 0] 0).2 rfl rfl rfl⟩

/-! ## C3: validation of the caller-supplied contract -/

/-- C3: for a wrappable denom, `SendCoinFromERC20ToNative` gets past its contract
validation (its next step, the ledger transfer out of the contract account, is
attempted) exactly when the contract equals the external or the auto binding of
the denom; otherwise, also when the denom has no binding, it returns the
not-mapped error with the context untouched: no transfer and no EVM call. -/
theorem SendCoinFromERC20ToNative_validation (k : Keeper V) (ctx : Context V)
    (contract receiver : Address) (coin : Coin)
    (hvalid : k.IsValidDenomToWrap coin.Denom = true) :
    ((∃ rest, (SendCoinFromERC20ToNative k ctx contract receiver coin).2.trace
        = ctx.trace ++ Event.sendCoins contract receiver coin :: rest) ↔
      (getExternalContractByDenom ctx coin.Denom = some contract ∨
        getAutoContractByDenom ctx coin.Denom = some contract)) ∧
    (¬ (getExternalContractByDenom ctx coin.Denom = some contract ∨
        getAutoContractByDenom ctx coin.Denom = some contract) →
      SendCoinFromERC20ToNative k ctx contract receiver coin
        = (Except.error (Error.errorsNew "the contract address is not mapped to the denom"),
            ctx)) := by
  have hno : ¬ (getExternalContractByDenom ctx coin.Denom = some contract ∨
        getAutoContractByDenom ctx coin.Denom = some contract) →
      SendCoinFromERC20ToNative k ctx contract receiver coin
        = (Except.error (Error.errorsNew "the contract address is not mapped to the denom"),
            ctx) := by
    intro hb
    push_neg at hb
    simp [SendCoinFromERC20ToNative, hvalid, hb.1, hb.2]
  refine ⟨⟨?_, ?_⟩, hno⟩
  · rintro ⟨rest, hrest⟩
    by_contra hb
    rw [hno hb] at hrest
    have := congrArg List.length hrest
    simp at this
  · intro hb
    have hfound : (decide (getExternalContractByDenom ctx coin.Denom = some contract) ||
        decide (getAutoContractByDenom ctx coin.Denom = some contract)) = true := by
      rcases hb with hb | hb <;> simp [hb]
    have hs := SendCoins_frame ctx contract receiver coin
    unfold SendCoinFromERC20ToNative
    simp only [hvalid, hfound, Bool.not_true, Bool.false_eq_true, if_false]
    split
    · rename_i err ctx1 hsend
      rw [hsend] at hs
      exact ⟨[], hs.2.2.2⟩
    · rename_i u ctx1 hsend
      rw [hsend] at hs
      obtain ⟨_, _, rest, hrest, _⟩ := CallModuleERC20_frame k ctx1 contract "burn_by_native"
        [AbiArg.address receiver, AbiArg.bigInt coin.Amount]
      refine ⟨rest, ?_⟩
      split
      · rename_i err ctx2 hcall
        rw [hcall] at hrest
        simp only at hrest ⊢
        rw [hrest, hs.2.2.2]
        simp
      · rename_i r ctx2 hcall
        rw [hcall] at hrest
        simp only at hrest ⊢
        rw [hrest, hs.2.2.2]
        simp

theorem SendCoinFromERC20ToNative_validation_witness :
    SendCoinFromERC20ToNative demoKeeper (demoCtx false true) 99 1 ⟨"ibc/atom", 5⟩
      = (Except.error (Error.errorsNew "the contract address is not mapped to the denom"),
          demoCtx false true) :=
  (SendCoinFromERC20ToNative_validation demoKeeper (demoCtx false true) 99 1
    ⟨"ibc/atom", 5⟩ (by decide)).2 (by decide)

/-! ## C4: auto-deployment with contract creation disabled -/

/-- C4: for a wrappable denom with no external and no auto binding, when
`EnableCreate` is false, `SendCoinFromNativeToERC20` with autoDeploy = true
returns an error and leaves the context untouched (no auto binding recorded, no
transfer, no message executed); the error is the creation-disabled error of
`CallEVM` as soon as the constructor arguments pack. -/
theorem autoDeploy_blocked_when_create_disabled (k : Keeper V) (ctx : Context V)
    (sender : Address) (coin : Coin)
    (hvalid : k.IsValidDenomToWrap coin.Denom = true)
    (hext : getExternalContractByDenom ctx coin.Denom = none)
    (hauto : getAutoContractByDenom ctx coin.Denom = none)
    (hcreate : (k.GetParams ctx.evm).EnableCreate = false) :
    (SendCoinFromNativeToERC20 k ctx sender coin true).2 = ctx ∧
    (∃ err, (SendCoinFromNativeToERC20 k ctx sender coin true).1 = Except.error err) ∧
    (∀ ctor, k.Pack "" [AbiArg.str coin.Denom, AbiArg.uint8 0] = Except.ok ctor →
      SendCoinFromNativeToERC20 k ctx sender coin true
        = (Except.error (Error.errorsNew "failed to create new contract"), ctx)) := by
  have hnone : GetContractByDenom ctx coin.Denom = none := by
    simp [GetContractByDenom, hext, hauto]
  cases hp : k.Pack "" [AbiArg.str coin.Denom, AbiArg.uint8 0] with
  | error e =>
    have : SendCoinFromNativeToERC20 k ctx sender coin true = (Except.error e, ctx) := by
      simp [SendCoinFromNativeToERC20, hvalid, hnone, DeployModuleERC20, hp]
    rw [this]
    exact ⟨rfl, ⟨e, rfl⟩, by intro ctor h; cases h⟩
  | ok ctor =>
    have : SendCoinFromNativeToERC20 k ctx sender coin true
        = (Except.error (Error.errorsNew "failed to create new contract"), ctx) := by
      simp [SendCoinFromNativeToERC20, hvalid, hnone, DeployModuleERC20, hp,
        CallEVM_create_disabled k ctx _ _ hcreate]
    rw [this]
    exact ⟨rfl, ⟨_, rfl⟩, fun _ _ => rfl⟩

theorem autoDeploy_blocked_when_create_disabled_witness :
    SendCoinFromNativeToERC20 demoKeeper (demoCtx false false) 1 ⟨"ibc/osmo", 5⟩ true
      = (Except.error (Error.errorsNew "failed to create new contract"),
          demoCtx false false) :=
  (autoDeploy_blocked_when_create_disabled demoKeeper (demoCtx false false) 1
    ⟨"ibc/osmo", 5⟩ (by decide) (by decide) (by decide) rfl).2.2 [0] rfl

/-! ## C8: precedence of the external binding -/

/-- C8: for a wrappable denom with both an external binding `e` and an auto
binding `a`, `SendCoinFromNativeToERC20` works on the external contract whatever
`autoDeploy` is: the first thing it does is the ledger transfer from the sender to
the account of `e`; every message it then executes is addressed to `e` (none is a
creation) and no registry write happens, the two registry maps staying as they
were; on success the trace is exactly the transfer to `e`, the `mint_by_native`
message to `e`, and its commit. -/
theorem external_binding_preferred (k : Keeper V) (ctx : Context V) (sender : Address)
    (coin : Coin) (autoDeploy : Bool) (e a : Address)
    (hvalid : k.IsValidDenomToWrap coin.Denom = true)
    (hext : getExternalContractByDenom ctx coin.Denom = some e)
    (hauto : getAutoContractByDenom ctx coin.Denom = some a) :
    (SendCoinFromNativeToERC20 k ctx sender coin autoDeploy).2.externalContracts
      = ctx.externalContracts ∧
    (SendCoinFromNativeToERC20 k ctx sender coin autoDeploy).2.autoContracts
      = ctx.autoContracts ∧
    (∃ rest, (SendCoinFromNativeToERC20 k ctx sender coin autoDeploy).2.trace
        = ctx.trace ++ Event.sendCoins sender e coin :: rest ∧
      ∀ ev ∈ rest, evmEventFor (some e) ev) ∧
    (∀ ctx3, SendCoinFromNativeToERC20 k ctx sender coin autoDeploy = (Except.ok (), ctx3) →
      ∃ data cb,
        k.Pack "mint_by_native" [AbiArg.address sender, AbiArg.bigInt coin.Amount]
          = Except.ok data ∧
        ctx3.trace = ctx.trace ++
          [Event.sendCoins sender e coin,
           Event.applyMessage
             { From := k.EVMModuleAddress
               To := some e
               Nonce := k.GetNonce ctx.evm k.EVMModuleAddress
               Amount := 0
               GasLimit := k.DefaultGasCap
               GasPrice := 0
               Data := data
               AccessList := []
               CheckNonce := false } cb,
           Event.commitCachedContexts]) := by
  have _ := hauto
  have hfound : GetContractByDenom ctx coin.Denom = some e := by
    simp [GetContractByDenom, hext]
  rw [SendCoinFromNativeToERC20_found k ctx sender coin autoDeploy e hvalid hfound]
  obtain ⟨h1, h2, h3⟩ := transferThenMint_frame k ctx sender e coin
  refine ⟨h1, h2, h3, ?_⟩
  intro ctx3 hok
  obtain ⟨data, cb, _, hp, _, ht, _⟩ := transferThenMint_ok_trace k ctx ctx3 sender e coin hok
  exact ⟨data, cb, hp, ht⟩

theorem external_binding_preferred_witness :
    ∃ rest, (SendCoinFromNativeToERC20 demoKeeper (demoCtx false true) 1
        ⟨"ibc/atom", 5⟩ true).2.trace
        = (demoCtx false true).trace ++ Event.sendCoins 1 50 ⟨"ibc/atom", 5⟩ :: rest ∧
      ∀ ev ∈ rest, evmEventFor (some 50) ev :=
  (external_binding_preferred demoKeeper (demoCtx false true) 1 ⟨"ibc/atom", 5⟩ true 50 60
    (by decide) (by decide) (by decide)).2.2.1

/-! ## C7: auto-deployment happens once -/

/-- C7: for a wrappable denom with no binding, when two consecutive calls of
`SendCoinFromNativeToERC20` with autoDeploy = true both succeed, the first call
executes one creation message (`to = nil`), records the derived address `c` as the
auto binding, transfers to `c` and mints on `c`; the second call appends only the
transfer to `c`, the mint message to `c` and its commit, so it executes no
creation message and writes no binding, and the registry is as the first call
left it. Over both calls exactly one creation message is executed. -/
theorem autoDeploy_happens_once (k : Keeper V) (ctx ctx1 ctx2 : Context V)
    (sender1 sender2 : Address) (denom : String) (x1 x2 : Nat)
    (hvalid : k.IsValidDenomToWrap denom = true)
    (hext : getExternalContractByDenom ctx denom = none)
    (hauto : getAutoContractByDenom ctx denom = none)
    (h1 : SendCoinFromNativeToERC20 k ctx sender1 ⟨denom, x1⟩ true = (Except.ok (), ctx1))
    (h2 : SendCoinFromNativeToERC20 k ctx1 sender2 ⟨denom, x2⟩ true = (Except.ok (), ctx2)) :
    (∃ m0 cb0 m1 cb1, m0.To = none ∧
      m1.To = some (k.CreateAddress k.EVMModuleAddress (k.GetNonce ctx.evm k.EVMModuleAddress)) ∧
      ctx1.trace = ctx.trace ++
        [Event.applyMessage m0 cb0, Event.commitCachedContexts,
         Event.setAutoContractForDenom denom
           (k.CreateAddress k.EVMModuleAddress (k.GetNonce ctx.evm k.EVMModuleAddress)),
         Event.sendCoins sender1
           (k.CreateAddress k.EVMModuleAddress (k.GetNonce ctx.evm k.EVMModuleAddress))
           ⟨denom, x1⟩,
         Event.applyMessage m1 cb1, Event.commitCachedContexts]) ∧
    getAutoContractByDenom ctx1 denom
      = some (k.CreateAddress k.EVMModuleAddress (k.GetNonce ctx.evm k.EVMModuleAddress)) ∧
    ctx1.externalContracts = ctx.externalContracts ∧
    (∃ m2 cb2,
      m2.To = some (k.CreateAddress k.EVMModuleAddress (k.GetNonce ctx.evm k.EVMModuleAddress)) ∧
      ctx2.trace = ctx1.trace ++
        [Event.sendCoins sender2
           (k.CreateAddress k.EVMModuleAddress (k.GetNonce ctx.evm k.EVMModuleAddress))
           ⟨denom, x2⟩,
         Event.applyMessage m2 cb2, Event.commitCachedContexts]) ∧
    ctx2.externalContracts = ctx1.externalContracts ∧
    ctx2.autoContracts = ctx1.autoContracts ∧
    (newEvents ctx ctx1).countP Event.isCreation = 1 ∧
    (newEvents ctx1 ctx2).countP Event.isCreation = 0 ∧
    (newEvents ctx ctx2).countP Event.isCreation = 1 := by
  have hnone : GetContractByDenom ctx denom = none := by
    simp [GetContractByDenom, hext, hauto]
  obtain ⟨_, contract, c1, c2, ret, hres, _, _⟩ :=
    SendCoinFromNativeToERC20_ok_inv k ctx ctx1 sender1 ⟨denom, x1⟩ true h1
  rcases hres with ⟨hf, _⟩ | ⟨_, _, ctxd, hdep, _⟩
  · simp only at hf
    rw [hnone] at hf
    cases hf
  simp only at hdep
  obtain ⟨haddr, ctor, cb0, res0, bal0, evm0, _, _, _, _, hctxd⟩ :=
    DeployModuleERC20_ok_inv k ctx ctxd denom contract hdep
  rw [SendCoinFromNativeToERC20_deployed k ctx ctxd sender1 ⟨denom, x1⟩ contract hvalid hnone
    hdep] at h1
  obtain ⟨data1, cb1, _, _, _, ht1, he1, ha1, _⟩ :=
    transferThenMint_ok_trace k _ ctx1 sender1 contract ⟨denom, x1⟩ h1
  subst haddr
  have hext1 : ctx1.externalContracts = ctx.externalContracts := by
    rw [he1, hctxd]; rfl
  have hauto1 : getAutoContractByDenom ctx1 denom
      = some (k.CreateAddress k.EVMModuleAddress (k.GetNonce ctx.evm k.EVMModuleAddress)) := by
    simp [getAutoContractByDenom, ha1, SetAutoContractForDenom]
  have hfound1 : GetContractByDenom ctx1 denom
      = some (k.CreateAddress k.EVMModuleAddress (k.GetNonce ctx.evm k.EVMModuleAddress)) := by
    have : getExternalContractByDenom ctx1 denom = none := by
      simp only [getExternalContractByDenom, hext1]
      exact hext
    simp [GetContractByDenom, this, hauto1]
  rw [SendCoinFromNativeToERC20_found k ctx1 sender2 ⟨denom, x2⟩ true _ hvalid hfound1] at h2
  obtain ⟨data2, cb2, _, _, _, ht2, he2, ha2, _⟩ :=
    transferThenMint_ok_trace k ctx1 ctx2 sender2 _ ⟨denom, x2⟩ h2
  have htr1 : ctx1.trace = ctx.trace ++
      [Event.applyMessage (newMessage k ctx none (k.Bin ++ ctor) 0) cb0,
       Event.commitCachedContexts,
       Event.setAutoContractForDenom denom
         (k.CreateAddress k.EVMModuleAddress (k.GetNonce ctx.evm k.EVMModuleAddress)),
       Event.sendCoins sender1
         (k.CreateAddress k.EVMModuleAddress (k.GetNonce ctx.evm k.EVMModuleAddress))
         ⟨denom, x1⟩,
       Event.applyMessage
         { From := k.EVMModuleAddress
           To := some (k.CreateAddress k.EVMModuleAddress
             (k.GetNonce ctx.evm k.EVMModuleAddress))
           Nonce := k.GetNonce
             (SetAutoContractForDenom ctxd denom
               (k.CreateAddress k.EVMModuleAddress
                 (k.GetNonce ctx.evm k.EVMModuleAddress))).evm k.EVMModuleAddress
           Amount := 0
           GasLimit := k.DefaultGasCap
           GasPrice := 0
           Data := data1
           AccessList := []
           CheckNonce := false } cb1,
       Event.commitCachedContexts] := by
    rw [ht1, hctxd]
    simp [SetAutoContractForDenom]
  refine ⟨⟨_, cb0, _, cb1, ?_, ?_, htr1⟩, hauto1, hext1, ⟨_, cb2, ?_, ht2⟩, he2, ha2, ?_, ?_, ?_⟩
  · rfl
  · rfl
  · rfl
  · simp [newEvents, htr1, Event.isCreation, newMessage]
  · simp [newEvents, ht2, Event.isCreation]
  · simp [newEvents, ht2, htr1, Event.isCreation, newMessage]

theorem autoDeploy_happens_once_witness :
    (newEvents (demoCtx false true)
      (SendCoinFromNativeToERC20 demoKeeper
        (SendCoinFromNativeToERC20 demoKeeper (demoCtx false true) 1 ⟨"ibc/osmo", 5⟩ true).2
        1 ⟨"ibc/osmo", 3⟩ true).2).countP Event.isCreation = 1 :=
  (autoDeploy_happens_once demoKeeper (demoCtx false true)
    (SendCoinFromNativeToERC20 demoKeeper (demoCtx false true) 1 ⟨"ibc/osmo", 5⟩ true).2
    (SendCoinFromNativeToERC20 demoKeeper
      (SendCoinFromNativeToERC20 demoKeeper (demoCtx false true) 1 ⟨"ibc/osmo", 5⟩ true).2
      1 ⟨"ibc/osmo", 3⟩ true).2
    1 1 "ibc/osmo" 5 3 (by decide) (by decide) (by decide) rfl rfl).2.2.2.2.2.2.2.2

/-! ## C6: round-trip conservation -/

/-- C6: assuming message execution leaves ledger balances alone, if
`SendCoinFromNativeToERC20` from `A` succeeds and its ledger transfer went to
contract `C`, and `SendCoinFromERC20ToNative` with contract `C`, receiver `A` and
the same coin then succeeds, every ledger balance (every account, every denom, so
in particular those of `A` and of the account of `C`) is what it was before the
first call. -/
theorem roundtrip_restores_balances (k : Keeper V) (ctx ctx1 ctx2 : Context V)
    (A C : Address) (coin : Coin) (autoDeploy : Bool)
    (hneutral : k.LedgerNeutral)
    (h1 : SendCoinFromNativeToERC20 k ctx A coin autoDeploy = (Except.ok (), ctx1))
    (hC : Event.sendCoins A C coin ∈ newEvents ctx ctx1)
    (h2 : SendCoinFromERC20ToNative k ctx1 C A coin = (Except.ok (), ctx2)) :
    ctx2.balances = ctx.balances := by
  obtain ⟨hvalid, contract, c1, c2, ret, hres, hsend, hmint⟩ :=
    SendCoinFromNativeToERC20_ok_inv k ctx ctx1 A coin autoDeploy h1
  -- the first call: balances after it, and the contract it used
  have hfirst : ∃ bal1, transfer ctx.balances A contract coin = Except.ok bal1 ∧
      ctx1.balances = bal1 ∧ C = contract := by
    rcases hres with ⟨hfound, _⟩ | ⟨hnone, hauto, ctxd, hdep, _⟩
    · rw [SendCoinFromNativeToERC20_found k ctx A coin autoDeploy contract hvalid hfound] at h1
      obtain ⟨data, cb, bal1, _, hbal, ht, _, _, hb⟩ :=
        transferThenMint_ok_trace k ctx ctx1 A contract coin h1
      refine ⟨bal1, hbal, hb hneutral, ?_⟩
      rw [newEvents_of_trace ctx ctx1 _ ht] at hC
      simp at hC
      exact hC
    · subst hauto
      rw [SendCoinFromNativeToERC20_deployed k ctx ctxd A coin contract hvalid hnone hdep] at h1
      obtain ⟨data, cb, bal1, _, hbal, ht, _, _, hb⟩ :=
        transferThenMint_ok_trace k _ ctx1 A contract coin h1
      obtain ⟨_, ctor, cb0, res0, bal0, evm0, _, _, happ0, _, hctxd⟩ :=
        DeployModuleERC20_ok_inv k ctx ctxd coin.Denom contract hdep
      have hbd : ctxd.balances = ctx.balances := by
        rw [hctxd]
        exact hneutral _ _ _ _ _ _ _ happ0
      refine ⟨bal1, ?_, hb hneutral, ?_⟩
      · simpa [SetAutoContractForDenom, hbd] using hbal
      · have ht1 : ctx1.trace = ctx.trace ++
            [Event.applyMessage (newMessage k ctx none (k.Bin ++ ctor) 0) cb0,
             Event.commitCachedContexts,
             Event.setAutoContractForDenom coin.Denom contract,
             Event.sendCoins A contract coin,
             Event.applyMessage
               { From := k.EVMModuleAddress
                 To := some contract
                 Nonce := k.GetNonce
                   (SetAutoContractForDenom ctxd coin.Denom contract).evm k.EVMModuleAddress
                 Amount := 0
                 GasLimit := k.DefaultGasCap
                 GasPrice := 0
                 Data := data
                 AccessList := []
                 CheckNonce := false } cb,
             Event.commitCachedContexts] := by
          rw [ht, hctxd]
          simp [SetAutoContractForDenom]
        rw [newEvents_of_trace ctx ctx1 _ ht1] at hC
        simp at hC
        exact hC
  obtain ⟨bal1, hbal1, hctx1, hCeq⟩ := hfirst
  subst hCeq
  -- the second call
  obtain ⟨_, _, d1, ret2, hsend2, hburn⟩ :=
    SendCoinFromERC20ToNative_ok_inv k ctx1 ctx2 C A coin h2
  obtain ⟨bal2, hbal2, hd1⟩ := SendCoins_ok_inv ctx1 d1 C A coin hsend2
  obtain ⟨data2, cb2, res2, bal3, evm3, _, _, happ2, _, _, hctx2⟩ :=
    CallModuleERC20_ok_inv k d1 ctx2 C _ _ ret2 hburn
  have hb3 : bal3 = bal2 := by
    have := hneutral _ _ _ _ _ _ _ happ2
    rw [this, hd1]
  rw [hctx2]
  simp only
  rw [hb3]
  rw [hctx1] at hbal2
  exact transfer_roundtrip ctx.balances bal1 bal2 A C coin hbal1 hbal2

theorem roundtrip_restores_balances_witness :
    (SendCoinFromERC20ToNative demoKeeper
      (SendCoinFromNativeToERC20 demoKeeper (demoCtx false true) 1 ⟨"ibc/atom", 5⟩ false).2
      50 1 ⟨"ibc/atom", 5⟩).2.balances = (demoCtx false true).balances :=
  roundtrip_restores_balances demoKeeper (demoCtx false true)
    (SendCoinFromNativeToERC20 demoKeeper (demoCtx false true) 1 ⟨"ibc/atom", 5⟩ false).2
    (SendCoinFromERC20ToNative demoKeeper
      (SendCoinFromNativeToERC20 demoKeeper (demoCtx false true) 1 ⟨"ibc/atom", 5⟩ false).2
      50 1 ⟨"ibc/atom", 5⟩).2
    1 50 ⟨"ibc/atom", 5⟩ false demoKeeper_ledgerNeutral rfl (by decide) rfl

/-! ## C2: a mint failure after the ledger transfer -/

/-- C2, as stated, fails: with the external contract 50 bound to `ibc/atom` and a VM
whose result is Failed, the transfer of 5 from account 1 succeeds, the mint call
fails, `SendCoinFromNativeToERC20` returns the error, and in the context it leaves
account 1 holds 5 where it held 10 before the call. -/
theorem mint_failure_counterexample :
    demoKeeper.IsValidDenomToWrap "ibc/atom" = true ∧
    GetContractByDenom (demoCtx true true) "ibc/atom" = some 50 ∧
    (SendCoins (demoCtx true true) 1 50 ⟨"ibc/atom", 5⟩).1 = Except.ok () ∧
    (CallModuleERC20 demoKeeper (SendCoins (demoCtx true true) 1 50 ⟨"ibc/atom", 5⟩).2 50
        "mint_by_native" [AbiArg.address 1, AbiArg.bigInt 5]).1
      = Except.error (Error.callContractFailed 50 "mint_by_native" []) ∧
    (SendCoinFromNativeToERC20 demoKeeper (demoCtx true true) 1 ⟨"ibc/atom", 5⟩ false).1
      = Except.error (Error.callContractFailed 50 "mint_by_native" []) ∧
    (demoCtx true true).balances 1 "ibc/atom" = 10 ∧
    (SendCoinFromNativeToERC20 demoKeeper (demoCtx true true) 1
        ⟨"ibc/atom", 5⟩ false).2.balances 1 "ibc/atom" = 5 ∧
    (SendCoinFromNativeToERC20 demoKeeper (demoCtx true true) 1
        ⟨"ibc/atom", 5⟩ false).2.balances 1 "ibc/atom"
      ≠ (demoCtx true true).balances 1 "ibc/atom" :=
  ⟨by decide, by decide, rfl, rfl, rfl, by decide, by decide, by decide⟩

/-- C2, amended: for a wrappable coin whose contract was resolved (found in the
registry, or deployed and recorded), if the ledger transfer succeeds and the
`mint_by_native` call then fails, `SendCoinFromNativeToERC20` returns that error
and hands back the context of the failed call without undoing the transfer: the
transfer is in its trace and, when message execution leaves the ledger alone, the
balances are those right after the transfer, so a sender other than the contract
account holds the amount less than before. The pre-state comes back only through
the host scope, which discards the context of a request that returned an error. -/
theorem mint_failure_keeps_transfer (k : Keeper V) (ctx ctx1 ctx2 ctx3 : Context V)
    (sender contract : Address) (coin : Coin) (autoDeploy : Bool) (err : Error)
    (hvalid : k.IsValidDenomToWrap coin.Denom = true)
    (hres : (GetContractByDenom ctx coin.Denom = some contract ∧ ctx1 = ctx) ∨
      (GetContractByDenom ctx coin.Denom = none ∧ autoDeploy = true ∧
        ∃ ctxd, DeployModuleERC20 k ctx coin.Denom = (Except.ok contract, ctxd) ∧
          ctx1 = SetAutoContractForDenom ctxd coin.Denom contract))
    (hsend : SendCoins ctx1 sender contract coin = (Except.ok (), ctx2))
    (hmint : CallModuleERC20 k ctx2 contract "mint_by_native"
      [AbiArg.address sender, AbiArg.bigInt coin.Amount] = (Except.error err, ctx3)) :
    SendCoinFromNativeToERC20 k ctx sender coin autoDeploy = (Except.error err, ctx3) ∧
    Event.sendCoins sender contract coin ∈ newEvents ctx ctx3 ∧
    (k.LedgerNeutral →
      transfer ctx.balances sender contract coin = Except.ok ctx3.balances ∧
      (sender ≠ contract →
        ctx3.balances sender coin.Denom + coin.Amount = ctx.balances sender coin.Denom)) ∧
    runScoped (fun c => SendCoinFromNativeToERC20 k c sender coin autoDeploy) ctx
      = (Except.error err, ctx) := by
  have hrun : SendCoinFromNativeToERC20 k ctx sender coin autoDeploy
      = (Except.error err, ctx3) := by
    rcases hres with ⟨hfound, hc⟩ | ⟨hnone, hauto, ctxd, hdep, hc⟩
    · subst hc
      rw [SendCoinFromNativeToERC20_found k ctx1 sender coin autoDeploy contract hvalid hfound]
      simp [transferThenMint, hsend, hmint]
    · subst hc hauto
      rw [SendCoinFromNativeToERC20_deployed k ctx ctxd sender coin contract hvalid hnone hdep]
      simp [transferThenMint, hsend, hmint]
  obtain ⟨bal, hbal, hctx2⟩ := SendCoins_ok_inv ctx1 ctx2 sender contract coin hsend
  obtain ⟨_, _, rest3, htr3, _⟩ := CallModuleERC20_frame k ctx2 contract "mint_by_native"
    [AbiArg.address sender, AbiArg.bigInt coin.Amount]
  rw [hmint] at htr3
  simp only at htr3
  have htr1 : ∃ pre, ctx1.trace = ctx.trace ++ pre := by
    rcases hres with ⟨_, hc⟩ | ⟨_, _, ctxd, hdep, hc⟩
    · exact ⟨[], by simp [hc]⟩
    · obtain ⟨_, ctor, cb0, res0, bal0, evm0, _, _, _, _, hctxd⟩ :=
        DeployModuleERC20_ok_inv k ctx ctxd coin.Denom contract hdep
      exact ⟨[Event.applyMessage (newMessage k ctx none (k.Bin ++ ctor) 0) cb0,
          Event.commitCachedContexts, Event.setAutoContractForDenom coin.Denom contract],
        by rw [hc, hctxd]; simp [SetAutoContractForDenom]⟩
  obtain ⟨pre, hpre⟩ := htr1
  refine ⟨hrun, ?_, ?_, ?_⟩
  · have : ctx3.trace
        = ctx.trace ++ (pre ++ Event.sendCoins sender contract coin :: rest3) := by
      rw [htr3, hctx2]
      simp [hpre]
    rw [newEvents_of_trace ctx ctx3 _ this]
    simp
  · intro hneutral
    have hb3 : ctx3.balances = bal := by
      have := CallModuleERC20_balances k hneutral ctx2 contract "mint_by_native"
        [AbiArg.address sender, AbiArg.bigInt coin.Amount]
      rw [hmint] at this
      simp only at this
      rw [this, hctx2]
    have hb1 : ctx1.balances = ctx.balances := by
      rcases hres with ⟨_, hc⟩ | ⟨_, _, ctxd, hdep, hc⟩
      · rw [hc]
      · have := DeployModuleERC20_balances k hneutral ctx coin.Denom
        rw [hdep] at this
        simp only at this
        rw [hc, ← this]
        rfl
    rw [hb1] at hbal
    rw [hb3]
    exact ⟨hbal, fun hne => transfer_debits ctx.balances bal sender contract coin hbal hne⟩
  · simp [runScoped, hrun]

theorem mint_failure_keeps_transfer_witness :
    SendCoinFromNativeToERC20 demoKeeper (demoCtx true true) 1 ⟨"ibc/atom", 5⟩ false
      = (Except.error (Error.callContractFailed 50 "mint_by_native" []),
          (CallModuleERC20 demoKeeper (SendCoins (demoCtx true true) 1 50 ⟨"ibc/atom", 5⟩).2
            50 "mint_by_native" [AbiArg.address 1, AbiArg.bigInt 5]).2) :=
  (mint_failure_keeps_transfer demoKeeper (demoCtx true true) (demoCtx true true)
    (SendCoins (demoCtx true true) 1 50 ⟨"ibc/atom", 5⟩).2
    (CallModuleERC20 demoKeeper (SendCoins (demoCtx true true) 1 50 ⟨"ibc/atom", 5⟩).2
      50 "mint_by_native" [AbiArg.address 1, AbiArg.bigInt 5]).2
    1 50 ⟨"ibc/atom", 5⟩ false (Error.callContractFailed 50 "mint_by_native" [])
    (by decide) (Or.inl ⟨by decide, rfl⟩) rfl rfl).1

/-! ## C5: the batch conversions -/

/-- C5, as stated, fails: in a batch of two coins whose second has an unsupported
denom, both batch functions return the error of that coin while the transfer of the
first coin stays in the context they leave: account 1 held 10 `ibc/atom` before and
holds 5 after the native-to-ERC20 batch, 15 after the ERC20-to-native batch. -/
theorem batch_failure_counterexample :
    (ConvertCoinsFromNativeToERC20 demoKeeper (demoCtx false true) 1
        [⟨"ibc/atom", 5⟩, ⟨"stake", 1⟩] false).1
      = Except.error (Error.errorsNew "denom is not supported for wrapping") ∧
    (demoCtx false true).balances 1 "ibc/atom" = 10 ∧
    (ConvertCoinsFromNativeToERC20 demoKeeper (demoCtx false true) 1
        [⟨"ibc/atom", 5⟩, ⟨"stake", 1⟩] false).2.balances 1 "ibc/atom" = 5 ∧
    (ConvertCoinsFromERC20ToNative demoKeeper (demoCtx false true) 50 1
        [⟨"ibc/atom", 5⟩, ⟨"stake", 1⟩]).1
      = Except.error (Error.errorsNew "denom is not supported for wrapping") ∧
    (ConvertCoinsFromERC20ToNative demoKeeper (demoCtx false true) 50 1
        [⟨"ibc/atom", 5⟩, ⟨"stake", 1⟩]).2.balances 1 "ibc/atom" = 15 :=
  ⟨rfl, by decide, by decide, rfl, by decide⟩

/-- C5, amended: both batch functions apply the single-coin function to the coins
in list order, each on the context the previous coin left; when the coins before
some coin all succeed and that coin fails, the batch returns the error of that coin
whatever coins follow (they are not processed) and hands back the context exactly
as the failing call left it, the effects of the earlier coins included: the batch
undoes nothing itself. The zero net effect comes only from the host scope, which
discards the context of a request that returned an error. -/
theorem batch_stops_at_first_failure (k : Keeper V) (ctx ctxn ctxf : Context V)
    (sender contract receiver : Address) (autoDeploy : Bool)
    (pre post : List Coin) (coin : Coin) (err : Error) :
    (ConvertCoinsFromNativeToERC20 k ctx sender pre autoDeploy = (Except.ok (), ctxn) →
      ConvertCoinsFromNativeToERC20 k ctx sender (pre ++ post) autoDeploy
        = ConvertCoinsFromNativeToERC20 k ctxn sender post autoDeploy) ∧
    (ConvertCoinsFromNativeToERC20 k ctx sender pre autoDeploy = (Except.ok (), ctxn) →
      SendCoinFromNativeToERC20 k ctxn sender coin autoDeploy = (Except.error err, ctxf) →
      ConvertCoinsFromNativeToERC20 k ctx sender (pre ++ coin :: post) autoDeploy
          = (Except.error err, ctxf) ∧
        runScoped (fun c => ConvertCoinsFromNativeToERC20 k c sender (pre ++ coin :: post)
          autoDeploy) ctx = (Except.error err, ctx)) ∧
    (ConvertCoinsFromERC20ToNative k ctx contract receiver pre = (Except.ok (), ctxn) →
      ConvertCoinsFromERC20ToNative k ctx contract receiver (pre ++ post)
        = ConvertCoinsFromERC20ToNative k ctxn contract receiver post) ∧
    (ConvertCoinsFromERC20ToNative k ctx contract receiver pre = (Except.ok (), ctxn) →
      SendCoinFromERC20ToNative k ctxn contract receiver coin = (Except.error err, ctxf) →
      ConvertCoinsFromERC20ToNative k ctx contract receiver (pre ++ coin :: post)
          = (Except.error err, ctxf) ∧
        runScoped (fun c => ConvertCoinsFromERC20ToNative k c contract receiver
          (pre ++ coin :: post)) ctx = (Except.error err, ctx)) := by
  refine ⟨?_, ?_, ?_, ?_⟩
  · intro hpre
    exact ConvertCoinsFromNativeToERC20_append k sender autoDeploy pre post ctx ctxn hpre
  · intro hpre hfail
    have hrun : ConvertCoinsFromNativeToERC20 k ctx sender (pre ++ coin :: post) autoDeploy
        = (Except.error err, ctxf) := by
      rw [ConvertCoinsFromNativeToERC20_append k sender autoDeploy pre (coin :: post) ctx ctxn
        hpre]
      simp [ConvertCoinsFromNativeToERC20, hfail]
    exact ⟨hrun, by simp [runScoped, hrun]⟩
  · intro hpre
    exact ConvertCoinsFromERC20ToNative_append k contract receiver pre post ctx ctxn hpre
  · intro hpre hfail
    have hrun : ConvertCoinsFromERC20ToNative k ctx contract receiver (pre ++ coin :: post)
        = (Except.error err, ctxf) := by
      rw [ConvertCoinsFromERC20ToNative_append k contract receiver pre (coin :: post) ctx ctxn
        hpre]
      simp [ConvertCoinsFromERC20ToNative, hfail]
    exact ⟨hrun, by simp [runScoped, hrun]⟩

theorem batch_stops_at_first_failure_witness :
    ConvertCoinsFromNativeToERC20 demoKeeper (demoCtx false true) 1
        ([⟨"ibc/atom", 5⟩] ++ ⟨"stake", 1⟩ :: [⟨"ibc/atom", 2⟩]) false
      = (Except.error (Error.errorsNew "denom is not supported for wrapping"),
          (SendCoinFromNativeToERC20 demoKeeper (demoCtx false true) 1
            ⟨"ibc/atom", 5⟩ false).2) ∧
    runScoped (fun c => ConvertCoinsFromNativeToERC20 demoKeeper c 1
        ([⟨"ibc/atom", 5⟩] ++ ⟨"stake", 1⟩ :: [⟨"ibc/atom", 2⟩]) false) (demoCtx false true)
      = (Except.error (Error.errorsNew "denom is not supported for wrapping"),
          demoCtx false true) :=
  (batch_stops_at_first_failure demoKeeper (demoCtx false true)
    (SendCoinFromNativeToERC20 demoKeeper (demoCtx false true) 1 ⟨"ibc/atom", 5⟩ false).2
    (SendCoinFromNativeToERC20 demoKeeper (demoCtx false true) 1 ⟨"ibc/atom", 5⟩ false).2
    1 50 1 false [⟨"ibc/atom", 5⟩] [⟨"ibc/atom", 2⟩] ⟨"stake", 1⟩
    (Error.errorsNew "denom is not supported for wrapping")).2.1 rfl rfl

end Cronos
